import Mathlib

/-!
# Verification of the reconciliation / compliance engine

A shallow embedding of `src/processors/data_merger.py`: the plan-snapshot
recorder (`update_plan_history`), the completion-history store
(`update_completion_history`), the requirement summarizer, the merge engine
and the compliance classifier that together form `get_merged_data`.

Modelling conventions:
* Calendar dates are `Int` day numbers; a missing or unparseable date
  (pandas `NaT`, the result of `to_datetime(..., errors='coerce')`) is
  `none : Option Date`.
* A dataframe is a `List` of row structures; only the columns the engine
  reads or writes are modelled, display-only columns are elided.
* The SQLite tables `plan_history` and `completion_history` are lists of
  row structures carried through the functions as explicit state.
* pandas comparison semantics on nullable dates are made explicit:
  a comparison with `NaT` on either side is `False`, and `Series.min`
  skips `NaT` (returning `NaT` only when no value is present).
* String primitives (`str.startswith`, `str.contains` with a plain
  pattern) are modelled on character lists so that they evaluate inside
  the kernel.
* Exceptions are modelled by explicit fault flags on `get_merged_data`,
  reproducing the source's two `try/except` tiers.
-/

/-- A calendar date, at date-only precision, as a day number. -/
abbrev Date := Int

/-- pandas `a <= b` on nullable timestamps: `False` whenever either side is `NaT`. -/
def optLe : Option Date → Option Date → Bool
  | some a, some b => a ≤ b
  | _, _ => false

/-- pandas `a < b` on nullable timestamps: `False` whenever either side is `NaT`. -/
def optLt : Option Date → Option Date → Bool
  | some a, some b => a < b
  | _, _ => false

/-- Binary step of pandas `Series.min`: `NaT` values are skipped. -/
def minOpt : Option Date → Option Date → Option Date
  | none, b => b
  | some a, none => some a
  | some a, some b => some (min a b)

/-- pandas `Series.min` over nullable dates: minimum of the non-`NaT`
values, `NaT` when there is none. -/
def seriesMin (l : List (Option Date)) : Option Date := l.foldr minOpt none

/-- Test whether `pat` is an initial segment of `l`
(Python `str.startswith`, on character lists). -/
def charsStartWith : List Char → List Char → Bool
  | _, [] => true
  | [], _ :: _ => false
  | c :: cs, p :: ps => c == p && charsStartWith cs ps

/-- Test whether `pat` occurs contiguously inside `l`
(pandas `.str.contains` with a plain, non-regex pattern). -/
def charsContain : List Char → List Char → Bool
  | [], pat => pat.isEmpty
  | c :: cs, pat => charsStartWith (c :: cs) pat || charsContain cs pat

/-- A row of the `zp02` order feed. Column names in the source are Japanese:
`指図番号` (order number, the key), `MRP管理者` (MRP controller),
`MRP管理者グループ` (MRP controller group), `計画終了` (planned end),
`DLV日付` (delivery date), `指図ステータス` (order lifecycle status tag).
Display-only columns (item code/text, planned start, remaining quantity)
are elided. Date columns are modelled after the `to_datetime` coercion the
source applies before they are consumed. -/
structure ZP02Row where
  order_number : String
  mrp_controller : Option String
  mrp_group : Option String
  plan_end : Option Date
  dlv_date : Option Date
  order_status : Option String
  deriving DecidableEq

/-- A row of the `zp51n` requirement feed. Source columns: `子指図番号`
(child order number), `所要日` (required date, modelled after the
`to_datetime(..., errors='coerce')` parse into `所要日_dt`),
`子MRP管理者` (child MRP controller), `親指図番号` (parent order number).
Other carried-along display columns are elided. -/
structure ZP51Row where
  child_order : Option String
  required_date : Option Date
  child_mrp : Option String
  parent_order : Option String
  deriving DecidableEq

/-- A row of the `plan_history` ledger:
`(snapshot_date, 指図番号, 計画終了)`, primary key `(snapshot_date, 指図番号)`. -/
structure PlanRow where
  snapshot_date : Date
  order_number : String
  plan_end : Option Date
  deriving DecidableEq

/-- A row of the `completion_history` table:
`子指図番号` (primary key), `完了日` (completion date),
`基準計画終了日` (baseline planned-end date). The two date columns are
nullable in the schema (the baseline column is even added by a schema
migration on legacy tables), hence `Option`. -/
structure CompRow where
  child_order : String
  completion_date : Option Date
  baseline_plan_end : Option Date
  deriving DecidableEq

/-- Source function `update_plan_history` (data_merger.py lines 7-52): if
any `plan_history` row already carries today's date the recorder
short-circuits and writes nothing, otherwise it appends one
`(today, order, planned end)` row per row of the full `zp02` feed. -/
def update_plan_history (today : Date) (plan_history : List PlanRow)
    (df_zp02 : List ZP02Row) : List PlanRow :=
  if plan_history.any (fun r => r.snapshot_date == today) then plan_history
  else plan_history ++ df_zp02.map (fun r => ⟨today, r.order_number, r.plan_end⟩)

/-- The primary-key projection of the `plan_history` ledger. -/
def planKeys (l : List PlanRow) : List (Date × String) :=
  l.map (fun r => (r.snapshot_date, r.order_number))

/-- Row lookup by order number in `completion_history` (the SQL
primary-key lookup, and the pandas left join on `子指図番号`, both of
which select the first matching row). -/
def lookupCompletion (hist : List CompRow) (o : String) : Option CompRow :=
  hist.find? (fun e => e.child_order == o)

/-- A unified record: one `zp02` master row, together with the matching
`zp51n` summary row when the left join found one. -/
structure MergedRow where
  z2 : ZP02Row
  z5 : Option ZP51Row
  deriving DecidableEq

/-- Source function `update_completion_history` (data_merger.py lines
67-138): filter the merged data to orders with a delivery date, drop those
already recorded in `completion_history`, compute each remaining order's
baseline as the minimum planned end over its `plan_history` rows (orders
with no snapshot rows are skipped), drop rows whose completion date or
baseline is null (`dropna`), and append the rest. The source's early
`return`s on empty intermediate lists leave the table unchanged, which
coincides with appending an empty list. -/
def update_completion_history (hist : List CompRow) (plan_history : List PlanRow)
    (merged : List MergedRow) : List CompRow :=
  let completed_orders := merged.filter (fun r => r.z2.dlv_date.isSome)
  if completed_orders.isEmpty then hist
  else
    let remaining := completed_orders.filter
      (fun r => !(hist.any (fun e => e.child_order == r.z2.order_number)))
    if remaining.isEmpty then hist
    else
      let new_history_list := remaining.filterMap (fun r =>
        let order_plan_history := plan_history.filter
          (fun p => p.order_number == r.z2.order_number)
        if order_plan_history.isEmpty then none
        else some (CompRow.mk r.z2.order_number r.z2.dlv_date
          (seriesMin (order_plan_history.map PlanRow.plan_end))))
      let new_history_df := new_history_list.filter
        (fun e => e.completion_date.isSome && e.baseline_plan_end.isSome)
      hist ++ new_history_df

/-- Sort key of `sort_values('所要日_dt')`; rows reaching the sort have a
parsed required date, so the default is never observed. -/
def reqKey (r : ZP51Row) : Date := r.required_date.getD 0

/-- Boolean `≤` on the sort key. -/
def reqLe (r s : ZP51Row) : Bool := reqKey r ≤ reqKey s

/-- Boolean `<` on the sort key. -/
def reqLt (r s : ZP51Row) : Bool := reqKey r < reqKey s

/-- What `sort_values('所要日_dt')` guarantees about its output: the
source calls it with the default sort kind (`'quicksort'`), which pandas
does not document as stable, so the program's semantics fix only that the
result is a permutation of the input that is ascending on the key — the
relative order of rows with equal keys is unspecified. Tie-sensitive
properties of the summarizer are therefore stated over every `sorted`
admitted by this relation. -/
def sortedByReq (valid sorted : List ZP51Row) : Prop :=
  sorted.Perm valid ∧ sorted.Pairwise (fun a b => reqLe a b = true)

/-- One step of the concrete ascending insertion sort below. -/
def insertByReq (r : ZP51Row) : List ZP51Row → List ZP51Row
  | [] => [r]
  | s :: ss => if reqLt s r then s :: insertByReq r ss else r :: s :: ss

/-- One concrete refinement of `sort_values('所要日_dt')`, used only so
the pipeline stays executable: it produces an output admitted by
`sortedByReq` (see `sortedByReq_sortByReq`). Like any deterministic
implementation it fixes some order on equal keys; no theorem relies on
that tie order, since the program does not guarantee one. -/
def sortByReq : List ZP51Row → List ZP51Row
  | [] => []
  | r :: rs => insertByReq r (sortByReq rs)

/-- Worker for `drop_duplicates(subset='子指図番号', keep='first')`:
keep a row only when its child-order value has not been seen yet. -/
def dropDupGo (seen : List (Option String)) : List ZP51Row → List ZP51Row
  | [] => []
  | r :: rs =>
      if r.child_order ∈ seen then dropDupGo seen rs
      else r :: dropDupGo (r.child_order :: seen) rs

/-- pandas `drop_duplicates(subset='子指図番号', keep='first')`. -/
def drop_duplicates_first (l : List ZP51Row) : List ZP51Row := dropDupGo [] l

/-- The Requirement Summarizer after its sort step: deduplication by
child order, keeping the first row of the sorted sequence per order.
Stated on an explicit `sorted` argument so that properties can be proved
for every sort output the program might produce (`sortedByReq`). -/
def summarizeFromSorted (sorted : List ZP51Row) : List ZP51Row :=
  drop_duplicates_first sorted

/-- The Requirement Summarizer (data_merger.py lines 164-172): parse the
required date (already reflected in `required_date`), drop rows with a
null required date or null child order, sort ascending by required date
(here with the concrete refinement `sortByReq`; the tie order of the
source's sort is unspecified) and keep the first row per child order. -/
def summarize_zp51n (df_zp51n : List ZP51Row) : List ZP51Row :=
  let valid := df_zp51n.filter
    (fun r => r.required_date.isSome && r.child_order.isSome)
  summarizeFromSorted (sortByReq valid)

/-- The filter `df_zp02['MRP管理者'].str.startswith('PC', na=False)`:
null controllers count as `False`. -/
def startsWithPC : Option String → Bool
  | some s => charsStartWith s.toList "PC".toList
  | none => false

/-- Master-data filter (data_merger.py line 161): keep `zp02` rows whose
MRP controller starts with `'PC'`. -/
def filter_pc (df_zp02 : List ZP02Row) : List ZP02Row :=
  df_zp02.filter (fun r => startsWithPC r.mrp_controller)

/-- The Merge Engine (data_merger.py lines 175-181): left join of the
filtered master on the `zp51n` summary, keyed `指図番号 = 子指図番号`.
The summary holds at most one row per child order, so the pandas left
join yields exactly one output row per master row, with the unique match
when it exists — which is what `find?` selects. -/
def left_join (base_df : List ZP02Row) (zp51_summary : List ZP51Row) :
    List MergedRow :=
  base_df.map (fun b =>
    ⟨b, zp51_summary.find? (fun s => s.child_order == some b.order_number)⟩)

/-- The test `.str.contains('DLV', na=False)` on the lifecycle status tag. -/
def statusContainsDLV : Option String → Bool
  | some s => charsContain s.toList "DLV".toList
  | none => false

/-- The effective required date (`基準所要日`, data_merger.py line 210):
the summarized required date, falling back to the order's planned end
date when the requirement is missing (`fillna`). -/
def effective_required (m : MergedRow) : Option Date :=
  match m.z5.bind ZP51Row.required_date with
  | some d => some d
  | none => m.z2.plan_end

/-- Owning-department resolution (data_merger.py lines 218-220):
`子MRP管理者` from the requirement feed when present; otherwise the
concatenation of the order feed's `MRP管理者` and `MRP管理者グループ`
(each read as the empty string when null); an empty result is replaced
by null (`replace({'': None})`). -/
def resolve_child_mrp (req ord grp : Option String) : Option String :=
  let v := match req with
    | some v => v
    | none => (ord.getD "") ++ (grp.getD "")
  if v = "" then none else some v

/-- One row of the unified output dataset (`final_df`), restricted to the
columns the engine computes (display-only copies elided).
`compliance` is the `遵守状況` string: `"未完成"` (Unfinished),
`"遵守"` (Compliant), `"未遵守"` (NonCompliant), `"遅延"` (Delayed);
`early_production` is the `先行生産` flag. -/
structure FinalRow where
  child_order : String
  parent_order : Option String
  required_date : Option Date
  plan_end : Option Date
  base_required : Option Date
  completion_date : Option Date
  baseline_plan_end : Option Date
  child_mrp : Option String
  compliance : String
  early_production : Bool
  deviation_days : Option Int
  deriving DecidableEq

/-- The Compliance Classifier and column shaping (data_merger.py lines
196-277) for a single unified record, given the `completion_history`
table as read back after the history update. The source assigns the
status by four sequential mask assignments over an initial `"未完成"`;
the masks are pairwise disjoint, so the assignment chain is the if-chain
below. All date comparisons follow pandas `NaT` semantics (`optLe` /
`optLt` are `False` on `NaT`). -/
def build_final_row (today : Date) (hist : List CompRow) (m : MergedRow) :
    FinalRow :=
  let entry := lookupCompletion hist m.z2.order_number
  let completion_date := entry.bind CompRow.completion_date
  let baseline := entry.bind CompRow.baseline_plan_end
  let required_date := m.z5.bind ZP51Row.required_date
  let base_required := effective_required m
  let completed := statusContainsDLV m.z2.order_status
  let compliance :=
    if completed && optLe completion_date baseline then "遵守"
    else if completed && optLt baseline completion_date then "未遵守"
    else if !completed && base_required.isSome && optLt base_required (some today) then "遅延"
    else "未完成"
  let early := completed && completion_date.isSome && base_required.isSome
      && optLt completion_date (base_required.map (fun d => d - 7))
      && optLt (some today) base_required
  let deviation := match m.z2.plan_end, base_required with
    | some pe, some br => some (pe - br)
    | _, _ => none
  ⟨m.z2.order_number, m.z5.bind ZP51Row.parent_order, required_date,
   m.z2.plan_end, base_required, completion_date, baseline,
   resolve_child_mrp (m.z5.bind ZP51Row.child_mrp) m.z2.mrp_controller m.z2.mrp_group,
   compliance, early, deviation⟩

/-- The persistent database state visible to `get_merged_data`: the two
input feeds and the two ledgers. -/
structure DB where
  zp02 : List ZP02Row
  zp51n : List ZP51Row
  plan_history : List PlanRow
  completion_history : List CompRow
  deriving DecidableEq

/-- Source function `get_merged_data` (data_merger.py lines 141-297),
with the two `try/except` tiers made explicit as fault flags:
`merge_fault` models an exception raised in the merge pipeline itself,
caught by the outer handler (lines 291-293) which returns an empty
dataframe; `hist_fault` models an exception inside
`update_completion_history`, caught by its own handler (lines 137-138)
so that the table is left unchanged and the run continues. The final
display sort (lines 281-287) only permutes rows for presentation and is
elided. Returns the unified output dataset together with the updated
database state. -/
def get_merged_data (today : Date) (db : DB)
    (hist_fault merge_fault : Bool) : List FinalRow × DB :=
  let plan' := update_plan_history today db.plan_history db.zp02
  if merge_fault then ([], { db with plan_history := plan' })
  else
    let base_df := filter_pc db.zp02
    let zp51_summary := summarize_zp51n db.zp51n
    let merged_df := left_join base_df zp51_summary
    let hist' := if hist_fault then db.completion_history
      else update_completion_history db.completion_history plan' merged_df
    (merged_df.map (build_final_row today hist'),
     { db with plan_history := plan', completion_history := hist' })

/-- Well-formedness of the `completion_history` table as this pipeline
writes it: every entry carries both a completion date and a baseline
(the writer's `dropna` guarantees this for every row it appends). -/
def histWellFormed (hist : List CompRow) : Prop :=
  ∀ e ∈ hist, e.completion_date.isSome ∧ e.baseline_plan_end.isSome

theorem planKeys_append (l₁ l₂ : List PlanRow) :
    planKeys (l₁ ++ l₂) = planKeys l₁ ++ planKeys l₂ :=
  List.map_append _ _ _

/-- The history writer preserves well-formedness of the table: every row
it appends has survived the `dropna` on completion date and baseline. -/
theorem histWellFormed_update (hist : List CompRow) (plan : List PlanRow)
    (merged : List MergedRow) (h : histWellFormed hist) :
    histWellFormed (update_completion_history hist plan merged) := by
  intro e he
  simp only [update_completion_history] at he
  split at he
  · exact h e he
  · split at he
    · exact h e he
    · rcases List.mem_append.1 he with he | he
      · exact h e he
      · have := (List.mem_filter.1 he).2
        constructor
        · exact (Bool.and_eq_true _ _ ▸ this).1
        · exact (Bool.and_eq_true _ _ ▸ this).2

/-- C5: running the Snapshot Recorder a second time on the same calendar
date writes nothing — the ledger after the second invocation is exactly the
ledger after the first — and the ledger never holds two rows with the same
`(snapshot date, order number)` key (given the primary-key discipline: the
incoming ledger satisfies it and the feed's order numbers are distinct). -/
theorem snapshot_recorder_idempotent_per_day
    (today : Date) (plan : List PlanRow) (feed : List ZP02Row)
    (hplan : (planKeys plan).Nodup)
    (hfeed : (feed.map ZP02Row.order_number).Nodup) :
    update_plan_history today (update_plan_history today plan feed) feed
        = update_plan_history today plan feed
    ∧ (planKeys (update_plan_history today plan feed)).Nodup := by
  by_cases h : plan.any (fun r => r.snapshot_date == today)
  · constructor
    · simp only [update_plan_history, h, if_true]
    · simpa only [update_plan_history, h, if_true] using hplan
  · have h' : (plan.any fun r => r.snapshot_date == today) = false :=
      Bool.eq_false_iff.mpr h
    have hnone : ∀ r ∈ plan, r.snapshot_date ≠ today := by
      intro r hr
      have := (List.any_eq_false).1 h' r hr
      simpa using this
    constructor
    · cases feed with
      | nil => simp [update_plan_history, h']
      | cons z zs =>
          have h2 : ((plan ++ (z :: zs).map
              (fun r => PlanRow.mk today r.order_number r.plan_end)).any
              (fun r => r.snapshot_date == today)) = true := by
            simp [List.any_append]
          simp [update_plan_history, h', h2]
    · simp only [update_plan_history, h', Bool.false_eq_true, if_false]
      rw [planKeys_append, List.nodup_append]
      refine ⟨hplan, ?_, ?_⟩
      · have : planKeys (feed.map (fun r => PlanRow.mk today r.order_number r.plan_end))
            = (feed.map ZP02Row.order_number).map (fun o => (today, o)) := by
          simp [planKeys, Function.comp]
        rw [this]
        exact hfeed.map (fun a b hab => by simpa using hab)
      · intro k hk hk'
        rcases List.mem_map.1 hk with ⟨r, hr, rfl⟩
        rcases List.mem_map.1 hk' with ⟨s, hs, hkey⟩
        rcases List.mem_map.1 hs with ⟨z, _, rfl⟩
        exact hnone r hr (by simpa using congrArg Prod.fst hkey.symm)

/-- Witness for C5 at a concrete ledger and feed. -/
theorem snapshot_recorder_idempotent_per_day_witness :
    update_plan_history 10
        (update_plan_history 10 [⟨9, "A", some 5⟩]
          [⟨"A", some "PC1", none, some 6, none, none⟩])
        [⟨"A", some "PC1", none, some 6, none, none⟩]
      = update_plan_history 10 [⟨9, "A", some 5⟩]
          [⟨"A", some "PC1", none, some 6, none, none⟩]
    ∧ (planKeys (update_plan_history 10 [⟨9, "A", some 5⟩]
          [⟨"A", some "PC1", none, some 6, none, none⟩])).Nodup :=
  snapshot_recorder_idempotent_per_day 10 [⟨9, "A", some 5⟩]
    [⟨"A", some "PC1", none, some 6, none, none⟩] (by decide) (by decide)

theorem lookupCompletion_update (hist : List CompRow) (plan : List PlanRow)
    (merged : List MergedRow) (o : String) (e : CompRow)
    (h : lookupCompletion hist o = some e) :
    lookupCompletion (update_completion_history hist plan merged) o = some e := by
  simp only [update_completion_history]
  split
  · exact h
  · split
    · exact h
    · simp only [lookupCompletion] at h ⊢
      rw [List.find?_append, h]
      rfl

/-- C1: every entry the history writer adds stores as its baseline the
minimum planned-end date among the `plan_history` rows for that order at
the time of writing, and an order with no `plan_history` rows is skipped:
if it had no entry before the run, it has none after. -/
theorem completion_baseline_is_min_snapshot
    (hist : List CompRow) (plan : List PlanRow) (merged : List MergedRow) :
    (∀ e, e ∈ update_completion_history hist plan merged → e ∉ hist →
      e.baseline_plan_end
          = seriesMin ((plan.filter
              (fun p => p.order_number == e.child_order)).map PlanRow.plan_end)
        ∧ plan.filter (fun p => p.order_number == e.child_order) ≠ [])
    ∧ (∀ o : String, plan.filter (fun p => p.order_number == o) = [] →
        lookupCompletion hist o = none →
        lookupCompletion (update_completion_history hist plan merged) o = none) := by
  constructor
  · intro e he hnotin
    simp only [update_completion_history] at he
    split at he
    · exact absurd he hnotin
    · split at he
      · exact absurd he hnotin
      · rcases List.mem_append.1 he with he | he
        · exact absurd he hnotin
        · have he' := (List.mem_filter.1 he).1
          rcases List.mem_filterMap.1 he' with ⟨r, _, hfr⟩
          by_cases hemp : (plan.filter
              (fun p => p.order_number == r.z2.order_number)).isEmpty
          · rw [if_pos hemp] at hfr
            exact absurd hfr (by simp)
          · rw [if_neg hemp] at hfr
            have he2 := Option.some.inj hfr
            subst he2
            refine ⟨rfl, ?_⟩
            intro hnil
            rw [hnil] at hemp
            exact hemp rfl
  · intro o hplan hnone
    simp only [update_completion_history]
    split
    · exact hnone
    · split
      · exact hnone
      · simp only [lookupCompletion] at hnone ⊢
        rw [List.find?_append, hnone, Option.none_or]
        rw [List.find?_eq_none]
        intro e he
        have he' := (List.mem_filter.1 he).1
        rcases List.mem_filterMap.1 he' with ⟨r, _, hfr⟩
        by_cases hemp : (plan.filter
            (fun p => p.order_number == r.z2.order_number)).isEmpty
        · rw [if_pos hemp] at hfr
          exact absurd hfr (by simp)
        · rw [if_neg hemp] at hfr
          have he2 := Option.some.inj hfr
          subst he2
          intro hbeq
          have : r.z2.order_number = o := by simpa using hbeq
          rw [this] at hemp
          rw [hplan] at hemp
          exact hemp rfl

/-- Witness for C1: with snapshots `(day 0, A, end 5)` and `(day 1, A,
end 3)` and a completed order `A`, the recorded baseline is `3`; a
completed order `B` without snapshots gets no entry. -/
theorem completion_baseline_is_min_snapshot_witness :
    ((CompRow.mk "A" (some 9) (some 3)).baseline_plan_end
        = seriesMin ((([⟨0, "A", some 5⟩, ⟨1, "A", some 3⟩] :
              List PlanRow).filter
            (fun p => p.order_number == (CompRow.mk "A" (some 9) (some 3)).child_order)).map
            PlanRow.plan_end)
      ∧ ([⟨0, "A", some 5⟩, ⟨1, "A", some 3⟩] : List PlanRow).filter
            (fun p => p.order_number == (CompRow.mk "A" (some 9) (some 3)).child_order) ≠ [])
    ∧ lookupCompletion
        (update_completion_history [] [⟨0, "A", some 5⟩, ⟨1, "A", some 3⟩]
          [⟨⟨"A", some "PC1", none, some 5, some 9, some "REL DLV"⟩, none⟩,
           ⟨⟨"B", some "PC1", none, some 5, some 9, some "REL DLV"⟩, none⟩]) "B"
        = none :=
  ⟨(completion_baseline_is_min_snapshot [] [⟨0, "A", some 5⟩, ⟨1, "A", some 3⟩]
      [⟨⟨"A", some "PC1", none, some 5, some 9, some "REL DLV"⟩, none⟩,
       ⟨⟨"B", some "PC1", none, some 5, some 9, some "REL DLV"⟩, none⟩]).1
      (CompRow.mk "A" (some 9) (some 3)) (by decide) (by decide),
   (completion_baseline_is_min_snapshot [] [⟨0, "A", some 5⟩, ⟨1, "A", some 3⟩]
      [⟨⟨"A", some "PC1", none, some 5, some 9, some "REL DLV"⟩, none⟩,
       ⟨⟨"B", some "PC1", none, some 5, some 9, some "REL DLV"⟩, none⟩]).2
      "B" (by decide) (by decide)⟩

/-- C2: the completion history is write-once: an order's existing entry —
completion date and baseline — survives a full pipeline run unchanged,
whatever today's feeds, ledger contents and fault flags are (in
particular, even if the order's planned end or delivery date changed
upstream). -/
theorem completion_history_write_once
    (today : Date) (db : DB) (hist_fault merge_fault : Bool)
    (o : String) (e : CompRow)
    (h : lookupCompletion db.completion_history o = some e) :
    lookupCompletion
      ((get_merged_data today db hist_fault merge_fault).2).completion_history o
      = some e := by
  simp only [get_merged_data]
  split
  · exact h
  · by_cases hf : hist_fault
    · simpa [hf] using h
    · simpa [hf] using lookupCompletion_update db.completion_history _ _ o e h

/-- Witness for C2: a recorded entry for order `A` is untouched by a run
whose feed carries a changed planned end and delivery date for `A`. -/
theorem completion_history_write_once_witness :
    lookupCompletion
      ((get_merged_data 20
          (DB.mk [⟨"A", some "PC1", none, some 99, some 50, some "REL DLV"⟩] []
            [⟨0, "A", some 5⟩] [⟨"A", some 9, some 3⟩])
          false false).2).completion_history "A"
      = some (CompRow.mk "A" (some 9) (some 3)) :=
  completion_history_write_once 20
    (DB.mk [⟨"A", some "PC1", none, some 99, some 50, some "REL DLV"⟩] []
      [⟨0, "A", some 5⟩] [⟨"A", some 9, some 3⟩])
    false false "A" (CompRow.mk "A" (some 9) (some 3)) (by decide)

theorem mem_insertByReq (r a : ZP51Row) (l : List ZP51Row) :
    a ∈ insertByReq r l ↔ a = r ∨ a ∈ l := by
  induction l with
  | nil => simp [insertByReq]
  | cons s ss ih =>
      by_cases h : reqLt s r = true
      · rw [insertByReq, if_pos h]
        simp only [List.mem_cons, ih]
        tauto
      · rw [insertByReq, if_neg h]
        simp only [List.mem_cons]

theorem perm_insertByReq (r : ZP51Row) (l : List ZP51Row) :
    (insertByReq r l).Perm (r :: l) := by
  induction l with
  | nil => rfl
  | cons s ss ih =>
      by_cases h : reqLt s r = true
      · rw [insertByReq, if_pos h]
        exact (ih.cons s).trans (List.Perm.swap r s ss)
      · rw [insertByReq, if_neg h]

theorem perm_sortByReq (l : List ZP51Row) : (sortByReq l).Perm l := by
  induction l with
  | nil => rfl
  | cons r rs ih =>
      exact (perm_insertByReq r (sortByReq rs)).trans (ih.cons r)

theorem pairwise_insertByReq (r : ZP51Row) (l : List ZP51Row)
    (h : l.Pairwise (fun a b => reqLe a b = true)) :
    (insertByReq r l).Pairwise (fun a b => reqLe a b = true) := by
  induction l with
  | nil => simp [insertByReq]
  | cons s ss ih =>
      rcases List.pairwise_cons.1 h with ⟨h1, h2⟩
      by_cases hlt : reqLt s r = true
      · rw [insertByReq, if_pos hlt]
        refine List.pairwise_cons.2 ⟨?_, ih h2⟩
        intro x hx
        rcases (mem_insertByReq r x ss).1 hx with rfl | hx
        · exact decide_eq_true (le_of_lt (of_decide_eq_true hlt))
        · exact h1 x hx
      · rw [insertByReq, if_neg hlt]
        refine List.pairwise_cons.2 ⟨?_, h⟩
        intro x hx
        rcases List.mem_cons.1 hx with rfl | hx
        · exact decide_eq_true (le_of_not_lt (fun hc => hlt (decide_eq_true hc)))
        · have hsx := of_decide_eq_true (h1 x hx)
          have hrs : reqKey r ≤ reqKey s :=
            le_of_not_lt (fun hc => hlt (decide_eq_true hc))
          exact decide_eq_true (le_trans hrs hsx)

theorem pairwise_sortByReq (l : List ZP51Row) :
    (sortByReq l).Pairwise (fun a b => reqLe a b = true) := by
  induction l with
  | nil => simp [sortByReq]
  | cons r rs ih => exact pairwise_insertByReq r (sortByReq rs) ih

/-- The concrete sort `sortByReq` is one output the program's sort may
produce: a permutation of its input, ascending on the key. -/
theorem sortedByReq_sortByReq (l : List ZP51Row) : sortedByReq l (sortByReq l) :=
  ⟨perm_sortByReq l, pairwise_sortByReq l⟩

theorem dropDupGo_first_occ (l : List ZP51Row) :
    ∀ (seen : List (Option String)) (r : ZP51Row), r ∈ dropDupGo seen l →
      r.child_order ∉ seen ∧ ∃ l₁ l₂, l = l₁ ++ r :: l₂ ∧
        ∀ s ∈ l₁, s.child_order ≠ r.child_order := by
  induction l with
  | nil =>
      intro seen r hr
      simp [dropDupGo] at hr
  | cons x xs ih =>
      intro seen r hr
      by_cases hx : x.child_order ∈ seen
      · rw [dropDupGo, if_pos hx] at hr
        obtain ⟨hnotin, l₁, l₂, heq, hfree⟩ := ih seen r hr
        refine ⟨hnotin, x :: l₁, l₂, by rw [heq, List.cons_append], ?_⟩
        intro s hs
        rcases List.mem_cons.1 hs with rfl | hs'
        · intro hco
          rw [hco] at hx
          exact hnotin hx
        · exact hfree s hs'
      · rw [dropDupGo, if_neg hx] at hr
        rcases List.mem_cons.1 hr with rfl | hr'
        · exact ⟨hx, [], xs, rfl, by simp⟩
        · obtain ⟨hnotin, l₁, l₂, heq, hfree⟩ := ih (x.child_order :: seen) r hr'
          have hne : x.child_order ≠ r.child_order := fun hc => by
            rw [hc] at hnotin
            exact hnotin (List.mem_cons_self _ _)
          refine ⟨fun hc => hnotin (List.mem_cons.2 (Or.inr hc)),
            x :: l₁, l₂, by rw [heq, List.cons_append], ?_⟩
          intro s hs
          rcases List.mem_cons.1 hs with rfl | hs'
          · exact hne
          · exact hfree s hs'

theorem dropDupGo_pairwise (l : List ZP51Row) :
    ∀ seen, (dropDupGo seen l).Pairwise
      (fun a b => a.child_order ≠ b.child_order) := by
  induction l with
  | nil => intro seen; simp [dropDupGo]
  | cons x xs ih =>
      intro seen
      by_cases hx : x.child_order ∈ seen
      · rw [dropDupGo, if_pos hx]
        exact ih seen
      · rw [dropDupGo, if_neg hx]
        refine List.pairwise_cons.2 ⟨?_, ih _⟩
        intro b hb
        have := (dropDupGo_first_occ xs (x.child_order :: seen) b hb).1
        exact fun hc => this (by rw [← hc]; exact List.mem_cons_self _ _)

theorem dropDupGo_covers (l : List ZP51Row) :
    ∀ (seen : List (Option String)) (s : ZP51Row), s ∈ l →
      s.child_order ∉ seen →
      ∃ r ∈ dropDupGo seen l, r.child_order = s.child_order := by
  induction l with
  | nil =>
      intro seen s hs _
      cases hs
  | cons x xs ih =>
      intro seen s hs hnotin
      by_cases hx : x.child_order ∈ seen
      · rw [dropDupGo, if_pos hx]
        rcases List.mem_cons.1 hs with rfl | hs'
        · exact absurd hx hnotin
        · exact ih seen s hs' hnotin
      · rw [dropDupGo, if_neg hx]
        by_cases hco : s.child_order = x.child_order
        · exact ⟨x, List.mem_cons_self _ _, hco.symm⟩
        · rcases List.mem_cons.1 hs with rfl | hs'
          · exact absurd rfl hco
          · obtain ⟨r, hr, hre⟩ := ih (x.child_order :: seen) s hs'
              (fun hc => (List.mem_cons.1 hc).elim hco hnotin)
            exact ⟨r, List.mem_cons.2 (Or.inr hr), hre⟩

theorem optLe_eq_reqLe (r s : ZP51Row) (hr : r.required_date.isSome = true)
    (hs : s.required_date.isSome = true) :
    optLe r.required_date s.required_date = reqLe r s := by
  obtain ⟨a, ha⟩ := Option.isSome_iff_exists.1 hr
  obtain ⟨b, hb⟩ := Option.isSome_iff_exists.1 hs
  simp [optLe, reqLe, reqKey, ha, hb]

/-- Counterexample for C7's tie-break clause: the source sorts with
`sort_values('所要日_dt')` under the default sort kind, which pandas does
not guarantee to be stable, so the program only guarantees an output
admitted by `sortedByReq`. For two rows tied on the same required date
and child order, the reversed order `[second row, first row]` is such an
admissible sort output, and deduplication then keeps the second original
row — not the first as the claim's original-row-order tie-break asserts. -/
theorem requirement_summarizer_tie_counterexample :
    sortedByReq
        (([⟨some "O5", some 3, some "M1", none⟩,
           ⟨some "O5", some 3, some "M2", none⟩] : List ZP51Row).filter
          (fun r => r.required_date.isSome && r.child_order.isSome))
        [⟨some "O5", some 3, some "M2", none⟩,
         ⟨some "O5", some 3, some "M1", none⟩]
    ∧ summarizeFromSorted
        [⟨some "O5", some 3, some "M2", none⟩,
         ⟨some "O5", some 3, some "M1", none⟩]
      = [⟨some "O5", some 3, some "M2", none⟩]
    ∧ (⟨some "O5", some 3, some "M2", none⟩ : ZP51Row)
      ≠ ⟨some "O5", some 3, some "M1", none⟩ :=
  ⟨⟨by decide, by decide⟩, by decide, by decide⟩

/-- C7 as amended: the Requirement Summarizer drops every row with a null
required date or null order number and keeps exactly one row per child
order — a row of the input achieving the earliest required date for that
order; which of several rows tied on that earliest date is kept is
unspecified, because the source's sort does not guarantee stability. All
of this holds for every sort output the program may produce
(`sortedByReq`); on the spec's tie-free example rows
`[(O5, day 5), (O5, day 2), (O6, null)]` every admissible sort output —
in particular the pipeline's own `summarize_zp51n` — yields exactly
`(O5, day 2)`. -/
theorem requirement_summarizer_earliest (df sorted : List ZP51Row)
    (hsort : sortedByReq
      (df.filter (fun r => r.required_date.isSome && r.child_order.isSome))
      sorted) :
    (∀ r ∈ summarizeFromSorted sorted,
        r.required_date.isSome ∧ r.child_order.isSome ∧ r ∈ df)
    ∧ (summarizeFromSorted sorted).Pairwise
        (fun a b => a.child_order ≠ b.child_order)
    ∧ (∀ r ∈ summarizeFromSorted sorted, ∀ s ∈ df,
        s.child_order = r.child_order → s.required_date.isSome →
        optLe r.required_date s.required_date = true)
    ∧ (∀ s ∈ df, s.required_date.isSome → s.child_order.isSome →
        ∃ r ∈ summarizeFromSorted sorted, r.child_order = s.child_order)
    ∧ (∀ sorted', sortedByReq
          (([⟨some "O5", some 5, none, none⟩, ⟨some "O5", some 2, none, none⟩,
             ⟨some "O6", none, none, none⟩] : List ZP51Row).filter
            (fun r => r.required_date.isSome && r.child_order.isSome)) sorted' →
        summarizeFromSorted sorted' = [⟨some "O5", some 2, none, none⟩])
    ∧ summarize_zp51n
        [⟨some "O5", some 5, none, none⟩, ⟨some "O5", some 2, none, none⟩,
         ⟨some "O6", none, none, none⟩]
      = [⟨some "O5", some 2, none, none⟩] := by
  obtain ⟨hperm, hpw⟩ := hsort
  have hval : ∀ r ∈ summarizeFromSorted sorted,
      r ∈ df.filter (fun t => t.required_date.isSome && t.child_order.isSome) := by
    intro r hr
    obtain ⟨-, l₁, l₂, heq, -⟩ := dropDupGo_first_occ sorted [] r hr
    have hmem : r ∈ sorted := by
      rw [heq]
      exact List.mem_append.2 (Or.inr (List.mem_cons_self _ _))
    exact hperm.mem_iff.1 hmem
  refine ⟨?_, ?_, ?_, ?_, ?_, by rfl⟩
  · intro r hr
    have h := List.mem_filter.1 (hval r hr)
    have h2 := Bool.and_eq_true _ _ ▸ h.2
    exact ⟨h2.1, h2.2, h.1⟩
  · exact dropDupGo_pairwise _ []
  · intro r hr s hs hco hsd
    obtain ⟨-, l₁, l₂, heq, hfree⟩ := dropDupGo_first_occ sorted [] r hr
    have hrp := Bool.and_eq_true _ _ ▸ (List.mem_filter.1 (hval r hr)).2
    have hsv : s ∈ df.filter
        (fun t => t.required_date.isSome && t.child_order.isSome) :=
      List.mem_filter.2 ⟨hs, by rw [Bool.and_eq_true]; exact ⟨hsd, hco ▸ hrp.2⟩⟩
    have hs' : s ∈ sorted := hperm.mem_iff.2 hsv
    rw [heq] at hs'
    rcases List.mem_append.1 hs' with h1 | h2
    · exact absurd hco (hfree s h1)
    · rcases List.mem_cons.1 h2 with heqsr | h2'
      · subst heqsr
        rw [optLe_eq_reqLe s s hsd hsd]
        exact decide_eq_true (le_refl _)
      · have hpw' := hpw
        rw [heq] at hpw'
        have hcons := (List.pairwise_append.1 hpw').2.1
        have hle := (List.pairwise_cons.1 hcons).1 s h2'
        rw [optLe_eq_reqLe r s hrp.1 hsd]
        exact hle
  · intro s hs hsd hso
    have hsv : s ∈ df.filter
        (fun t => t.required_date.isSome && t.child_order.isSome) :=
      List.mem_filter.2 ⟨hs, by rw [Bool.and_eq_true]; exact ⟨hsd, hso⟩⟩
    have hs' : s ∈ sorted := hperm.mem_iff.2 hsv
    exact dropDupGo_covers sorted [] s hs' (by simp)
  · intro sorted' hsort'
    have hfe : (([⟨some "O5", some 5, none, none⟩, ⟨some "O5", some 2, none, none⟩,
          ⟨some "O6", none, none, none⟩] : List ZP51Row).filter
        (fun r => r.required_date.isSome && r.child_order.isSome))
        = [⟨some "O5", some 5, none, none⟩, ⟨some "O5", some 2, none, none⟩] := rfl
    rw [hfe] at hsort'
    obtain ⟨hperm', hpw'⟩ := hsort'
    have hlen := hperm'.length_eq
    match sorted', hperm', hpw', hlen with
    | [], hperm', hpw', hlen => simp at hlen
    | [x], hperm', hpw', hlen => simp at hlen
    | x :: y :: z :: t, hperm', hpw', hlen => simp at hlen
    | [x, y], hperm', hpw', hlen =>
      have hx : x ∈ [(⟨some "O5", some 5, none, none⟩ : ZP51Row),
          ⟨some "O5", some 2, none, none⟩] := hperm'.mem_iff.1 (by simp)
      rcases List.mem_cons.1 hx with rfl | hx'
      · have hy : y = ⟨some "O5", some 2, none, none⟩ := by
          have hy' := hperm'.cons_inv.mem_iff.1 (List.mem_singleton.2 rfl)
          exact List.mem_singleton.1 hy'
        subst hy
        have hAB := (List.pairwise_cons.1 hpw').1
          ⟨some "O5", some 2, none, none⟩ (by simp)
        exact absurd hAB (by decide)
      · have hxB : x = ⟨some "O5", some 2, none, none⟩ := List.mem_singleton.1 hx'
        subst hxB
        have hy : y ∈ [(⟨some "O5", some 5, none, none⟩ : ZP51Row),
            ⟨some "O5", some 2, none, none⟩] := hperm'.mem_iff.1 (by simp)
        rcases List.mem_cons.1 hy with rfl | hy'
        · decide
        · exfalso
          have hyB : y = ⟨some "O5", some 2, none, none⟩ := List.mem_singleton.1 hy'
          subst hyB
          have hA : (⟨some "O5", some 5, none, none⟩ : ZP51Row)
              ∈ [(⟨some "O5", some 2, none, none⟩ : ZP51Row),
                 ⟨some "O5", some 2, none, none⟩] := hperm'.mem_iff.2 (by simp)
          simp at hA

/-- Witness for the amended C7 at the spec's example, with the admissible
sort output `[(O5, day 2), (O5, day 5)]`: the kept `O5` row has the
earliest required date, and the summary is exactly that row. -/
theorem requirement_summarizer_earliest_witness :
    optLe (ZP51Row.mk (some "O5") (some 2) none none).required_date
        (ZP51Row.mk (some "O5") (some 5) none none).required_date = true
    ∧ summarizeFromSorted
        [⟨some "O5", some 2, none, none⟩, ⟨some "O5", some 5, none, none⟩]
      = [⟨some "O5", some 2, none, none⟩] :=
  ⟨(requirement_summarizer_earliest
      [⟨some "O5", some 5, none, none⟩, ⟨some "O5", some 2, none, none⟩,
       ⟨some "O6", none, none, none⟩]
      [⟨some "O5", some 2, none, none⟩, ⟨some "O5", some 5, none, none⟩]
      ⟨by decide, by decide⟩).2.2.1
      (ZP51Row.mk (some "O5") (some 2) none none) (by decide)
      (ZP51Row.mk (some "O5") (some 5) none none) (by decide) (by decide) (by decide),
   (requirement_summarizer_earliest
      [⟨some "O5", some 5, none, none⟩, ⟨some "O5", some 2, none, none⟩,
       ⟨some "O6", none, none, none⟩]
      [⟨some "O5", some 2, none, none⟩, ⟨some "O5", some 5, none, none⟩]
      ⟨by decide, by decide⟩).2.2.2.2.1
      [⟨some "O5", some 2, none, none⟩, ⟨some "O5", some 5, none, none⟩]
      ⟨by decide, by decide⟩⟩

/-- C3: classification of a unified record. For a record whose lifecycle
tag contains the delivery marker: no completion-history entry means the
status stays `"未完成"` (Unfinished); with an entry, the status is
`"遵守"` (Compliant) when the entry's completion date is ≤ its baseline
planned end and `"未遵守"` (NonCompliant) when it is greater. For a
record without the marker: `"遅延"` (Delayed) when the effective required
date is known and earlier than today, `"未完成"` otherwise. Stated for
well-formed history tables — the invariant `histWellFormed_update` shows
this pipeline's writer maintains. -/
theorem compliance_status_classification (today : Date) (hist : List CompRow)
    (m : MergedRow) (hWF : histWellFormed hist) :
    (statusContainsDLV m.z2.order_status = true →
      (lookupCompletion hist m.z2.order_number = none →
        (build_final_row today hist m).compliance = "未完成")
      ∧ (∀ e, lookupCompletion hist m.z2.order_number = some e →
          ∃ c b, e.completion_date = some c ∧ e.baseline_plan_end = some b ∧
            (build_final_row today hist m).compliance
              = if c ≤ b then "遵守" else "未遵守"))
    ∧ (statusContainsDLV m.z2.order_status = false →
        (build_final_row today hist m).compliance
          = if optLt (effective_required m) (some today) = true then "遅延"
            else "未完成") := by
  constructor
  · intro hc
    constructor
    · intro hnone
      simp [build_final_row, hnone, optLe, optLt, hc]
    · intro e he
      have hmem := List.mem_of_find?_eq_some he
      obtain ⟨c, hcd⟩ := Option.isSome_iff_exists.1 (hWF e hmem).1
      obtain ⟨b, hbd⟩ := Option.isSome_iff_exists.1 (hWF e hmem).2
      refine ⟨c, b, hcd, hbd, ?_⟩
      by_cases hcb : c ≤ b
      · simp [build_final_row, he, hcd, hbd, optLe, hc, hcb]
      · have hbc : b < c := lt_of_not_le hcb
        simp [build_final_row, he, hcd, hbd, optLe, optLt, hc, hcb,
          not_le.1 hcb]
  · intro hc
    rcases hbr : effective_required m with _ | d
    · simp [build_final_row, hc, hbr, optLt]
    · by_cases hlt : d < today
      · simp [build_final_row, hc, hbr, optLt, hlt]
      · simp [build_final_row, hc, hbr, optLt, hlt]

theorem optLe_none_left (b : Option Date) : optLe none b = false := by
  cases b <;> rfl

theorem optLe_none_right (a : Option Date) : optLe a none = false := by
  cases a <;> rfl

theorem optLt_none_left (b : Option Date) : optLt none b = false := by
  cases b <;> rfl

theorem optLt_none_right (a : Option Date) : optLt a none = false := by
  cases a <;> rfl

/-- Witness for C3: a delivered order whose entry records completion day 9
against baseline day 3, and an undelivered order with a past planned end. -/
theorem compliance_status_classification_witness :
    (∃ c b, (CompRow.mk "A" (some 9) (some 3)).completion_date = some c ∧
        (CompRow.mk "A" (some 9) (some 3)).baseline_plan_end = some b ∧
        (build_final_row 10 [CompRow.mk "A" (some 9) (some 3)]
            (MergedRow.mk ⟨"A", some "PC1", none, some 5, some 9, some "REL DLV"⟩ none)).compliance
          = if c ≤ b then "遵守" else "未遵守")
    ∧ (build_final_row 10 [CompRow.mk "A" (some 9) (some 3)]
        (MergedRow.mk ⟨"B", some "PC1", none, some 0, none, some "REL"⟩ none)).compliance
      = if optLt (effective_required
            (MergedRow.mk ⟨"B", some "PC1", none, some 0, none, some "REL"⟩ none))
            (some 10) = true then "遅延" else "未完成" :=
  ⟨((compliance_status_classification 10 [CompRow.mk "A" (some 9) (some 3)]
      (MergedRow.mk ⟨"A", some "PC1", none, some 5, some 9, some "REL DLV"⟩ none)
      (by intro e he; rw [List.mem_singleton] at he; subst he; exact ⟨rfl, rfl⟩)).1
      (by decide)).2 (CompRow.mk "A" (some 9) (some 3)) (by decide),
   (compliance_status_classification 10 [CompRow.mk "A" (some 9) (some 3)]
      (MergedRow.mk ⟨"B", some "PC1", none, some 0, none, some "REL"⟩ none)
      (by intro e he; rw [List.mem_singleton] at he; subst he; exact ⟨rfl, rfl⟩)).2
      (by decide)⟩

/-- C4: the early-production flag is set iff the record's tag marks
delivery, a completion date is on record, and it precedes the effective
required date by more than 7 days with that date strictly in the future;
in particular, for well-formed history tables the flag is false whenever
the status is neither `"遵守"` nor `"未遵守"`. -/
theorem early_production_iff (today : Date) (hist : List CompRow)
    (m : MergedRow) (hWF : histWellFormed hist) :
    ((build_final_row today hist m).early_production = true ↔
      (statusContainsDLV m.z2.order_status = true ∧
        ∃ e c b, lookupCompletion hist m.z2.order_number = some e ∧
          e.completion_date = some c ∧ effective_required m = some b ∧
          c < b - 7 ∧ today < b))
    ∧ ((build_final_row today hist m).compliance ≠ "遵守" →
        (build_final_row today hist m).compliance ≠ "未遵守" →
        (build_final_row today hist m).early_production = false) := by
  have hiff : (build_final_row today hist m).early_production = true ↔
      (statusContainsDLV m.z2.order_status = true ∧
        ∃ e c b, lookupCompletion hist m.z2.order_number = some e ∧
          e.completion_date = some c ∧ effective_required m = some b ∧
          c < b - 7 ∧ today < b) := by
    constructor
    · intro h
      rcases hE : lookupCompletion hist m.z2.order_number with _ | e
      · simp [build_final_row, hE] at h
      · rcases hcd : e.completion_date with _ | c
        · simp [build_final_row, hE, hcd] at h
        · rcases hbr : effective_required m with _ | b
          · simp [build_final_row, hE, hcd, hbr] at h
          · simp only [build_final_row, hE, hcd, hbr, Option.some_bind,
              Option.map_some', Option.isSome_some, Bool.and_true,
              Bool.and_eq_true, optLt, decide_eq_true_eq] at h
            exact ⟨h.1.1, e, c, b, rfl, hcd, rfl, h.1.2, h.2⟩
    · rintro ⟨hc, e, c, b, hE, hcd, hbr, h1, h2⟩
      simp [build_final_row, hE, hcd, hbr, hc, optLt, h1, h2]
  refine ⟨hiff, ?_⟩
  intro hne1 hne2
  by_cases hearly : (build_final_row today hist m).early_production = true
  · exfalso
    obtain ⟨hc, e, c, b, hE, hcd, hbr, h1, h2⟩ := hiff.1 hearly
    obtain ⟨b', hbd⟩ := Option.isSome_iff_exists.1
      (hWF e (List.mem_of_find?_eq_some hE)).2
    by_cases hcb : c ≤ b'
    · exact hne1 (by simp [build_final_row, hE, hcd, hbd, hc, optLe, hcb])
    · exact hne2 (by
        simp [build_final_row, hE, hcd, hbd, hc, optLe, optLt, hcb, not_le.1 hcb])
  · exact Bool.eq_false_iff.mpr hearly

/-- Witness for C4: completion day 0, required date day 20, today day 10:
the gap exceeds 7 days and the requirement is in the future, so the flag
is set. -/
theorem early_production_iff_witness :
    (build_final_row 10 [CompRow.mk "A" (some 0) (some 3)]
        (MergedRow.mk ⟨"A", some "PC1", none, some 5, some 0, some "REL DLV"⟩
          (some ⟨some "A", some 20, none, none⟩))).early_production = true :=
  (early_production_iff 10 [CompRow.mk "A" (some 0) (some 3)]
      (MergedRow.mk ⟨"A", some "PC1", none, some 5, some 0, some "REL DLV"⟩
        (some ⟨some "A", some 20, none, none⟩))
      (by intro e he; rw [List.mem_singleton] at he; subst he; exact ⟨rfl, rfl⟩)).1.mpr
    ⟨by decide, CompRow.mk "A" (some 0) (some 3), 0, 20,
      by decide, by decide, by decide, by decide, by decide⟩

/-- Counterexample for C6: a record whose lifecycle tag contains the
delivery marker but which has no completion date on record, with an
effective required date (day 0) before today (day 10), is classified
`"未完成"` — not `"遅延"` as the claim asserts: the delivery tag alone
already removes the record from the Delayed check. -/
theorem delivery_tag_no_completion_counterexample :
    statusContainsDLV (MergedRow.mk
        ⟨"X", some "PC1", none, some 0, none, some "DLV"⟩ none).z2.order_status = true
    ∧ (build_final_row 10 []
        (MergedRow.mk ⟨"X", some "PC1", none, some 0, none, some "DLV"⟩ none)).completion_date
      = none
    ∧ optLt (effective_required
        (MergedRow.mk ⟨"X", some "PC1", none, some 0, none, some "DLV"⟩ none))
        (some 10) = true
    ∧ (build_final_row 10 []
        (MergedRow.mk ⟨"X", some "PC1", none, some 0, none, some "DLV"⟩ none)).compliance
      ≠ "遅延"
    ∧ (build_final_row 10 []
        (MergedRow.mk ⟨"X", some "PC1", none, some 0, none, some "DLV"⟩ none)).compliance
      = "未完成" := by
  refine ⟨by decide, by decide, by decide, by decide, by decide⟩

/-- C6 as amended: a unified record whose lifecycle tag contains the
delivery marker but which has no completion date on record is always
classified `"未完成"`, never `"遅延"`, whatever its effective required
date — the tag excludes it from the Delayed check and the missing
completion date excludes it from `"遵守"`/`"未遵守"`. -/
theorem delivery_tag_no_completion_unfinished (today : Date)
    (hist : List CompRow) (m : MergedRow)
    (hc : statusContainsDLV m.z2.order_status = true)
    (hnone : (build_final_row today hist m).completion_date = none) :
    (build_final_row today hist m).compliance = "未完成" := by
  rcases hE : lookupCompletion hist m.z2.order_number with _ | e
  · simp [build_final_row, hE, hc, optLe_none_left, optLt_none_right]
  · have hcd : e.completion_date = none := by
      simpa [build_final_row, hE] using hnone
    simp [build_final_row, hE, hc, hcd, optLe_none_left, optLt_none_right]

/-- Witness for the amended C6 at the counterexample's input. -/
theorem delivery_tag_no_completion_unfinished_witness :
    (build_final_row 10 []
        (MergedRow.mk ⟨"X", some "PC1", none, some 0, none, some "DLV"⟩ none)).compliance
      = "未完成" :=
  delivery_tag_no_completion_unfinished 10 []
    (MergedRow.mk ⟨"X", some "PC1", none, some 0, none, some "DLV"⟩ none)
    (by decide) (by decide)

/-- Counterexample for C8: with the requirement feed's department absent,
the order feed's controller `"PC1"` and group `"G2"`, the resolved owning
department is the concatenation `"PC1G2"` — not the order feed's value
`"PC1"` alone as the claim asserts. -/
theorem owning_department_counterexample :
    (build_final_row 0 []
        (MergedRow.mk ⟨"Y", some "PC1", some "G2", none, none, none⟩ none)).child_mrp
      = some "PC1G2"
    ∧ (build_final_row 0 []
        (MergedRow.mk ⟨"Y", some "PC1", some "G2", none, none, none⟩ none)).child_mrp
      ≠ some "PC1" := by
  refine ⟨by decide, by decide⟩

/-- C8 as amended: the owning department of a unified record is the
requirement feed's value when present; otherwise it is the concatenation
of the order feed's controller and controller group, each read as the
empty string when null; an empty result is stored as null. (So the order
feed's value is used alone only when the group is null or empty.) -/
theorem owning_department_resolution (today : Date) (hist : List CompRow)
    (m : MergedRow) :
    ((build_final_row today hist m).child_mrp
        = resolve_child_mrp (m.z5.bind ZP51Row.child_mrp)
            m.z2.mrp_controller m.z2.mrp_group)
    ∧ (∀ v, m.z5.bind ZP51Row.child_mrp = some v →
        (build_final_row today hist m).child_mrp
          = if v = "" then none else some v)
    ∧ (m.z5.bind ZP51Row.child_mrp = none →
        (build_final_row today hist m).child_mrp
          = if (m.z2.mrp_controller.getD "") ++ (m.z2.mrp_group.getD "") = ""
            then none
            else some ((m.z2.mrp_controller.getD "") ++ (m.z2.mrp_group.getD ""))) := by
  refine ⟨rfl, ?_, ?_⟩
  · intro v hv
    simp [build_final_row, resolve_child_mrp, hv]
  · intro hv
    simp [build_final_row, resolve_child_mrp, hv]

/-- Witness for the amended C8 at the counterexample's input. -/
theorem owning_department_resolution_witness :
    (build_final_row 0 []
        (MergedRow.mk ⟨"Y", some "PC1", some "G2", none, none, none⟩ none)).child_mrp
      = if ((some "PC1" : Option String).getD "") ++ ((some "G2" : Option String).getD "") = ""
        then none
        else some (((some "PC1" : Option String).getD "") ++ ((some "G2" : Option String).getD "")) :=
  (owning_department_resolution 0 []
      (MergedRow.mk ⟨"Y", some "PC1", some "G2", none, none, none⟩ none)).2.2
    (by decide)

/-- C9: two-tier error propagation. A merge-step fault makes the run
return the empty dataset; a history-write fault leaves the completion
history unchanged and the run still returns the unified dataset
classified against the baselines already on record; and in every case the
caller receives either the empty dataset or a dataset with exactly one
classified row per unified record — never a partial one. -/
theorem error_propagation_two_tier (today : Date) (db : DB) :
    (∀ hf, (get_merged_data today db hf true).1 = [])
    ∧ ((get_merged_data today db true false).1
        = (left_join (filter_pc db.zp02) (summarize_zp51n db.zp51n)).map
            (build_final_row today db.completion_history)
      ∧ (get_merged_data today db true false).2.completion_history
          = db.completion_history)
    ∧ (∀ hf mf, (get_merged_data today db hf mf).1 = []
        ∨ ∃ h, (get_merged_data today db hf mf).1
            = (left_join (filter_pc db.zp02) (summarize_zp51n db.zp51n)).map
                (build_final_row today h)) := by
  refine ⟨fun _ => rfl, ⟨rfl, rfl⟩, ?_⟩
  intro hf mf
  cases mf
  · exact Or.inr ⟨_, rfl⟩
  · exact Or.inl rfl

/-- C10: a feed order yields a unified output record exactly when its MRP
controller is a string starting with `"PC"` (null or other controllers are
silently excluded), while the day's plan snapshot covers every order of
the feed, filtered or not (stated for a run on a calendar date whose
snapshot has not been taken yet). -/
theorem pc_scope_and_snapshot_coverage (today : Date) (db : DB)
    (hfresh : ∀ r ∈ db.plan_history, r.snapshot_date ≠ today) :
    (∀ fr ∈ (get_merged_data today db false false).1,
        ∃ z ∈ db.zp02, fr.child_order = z.order_number
          ∧ startsWithPC z.mrp_controller = true)
    ∧ (∀ z ∈ db.zp02, startsWithPC z.mrp_controller = true →
        ∃ fr ∈ (get_merged_data today db false false).1,
          fr.child_order = z.order_number)
    ∧ (∀ z ∈ db.zp02,
        ∃ p ∈ (get_merged_data today db false false).2.plan_history,
          p.snapshot_date = today ∧ p.order_number = z.order_number) := by
  have hout : (get_merged_data today db false false).1
      = (left_join (filter_pc db.zp02) (summarize_zp51n db.zp51n)).map
          (build_final_row today
            (update_completion_history db.completion_history
              (update_plan_history today db.plan_history db.zp02)
              (left_join (filter_pc db.zp02) (summarize_zp51n db.zp51n)))) := rfl
  refine ⟨?_, ?_, ?_⟩
  · intro fr hfr
    rw [hout] at hfr
    rcases List.mem_map.1 hfr with ⟨mr, hmr, rfl⟩
    rcases List.mem_map.1 hmr with ⟨b, hb, rfl⟩
    have hb' := List.mem_filter.1 hb
    exact ⟨b, hb'.1, rfl, hb'.2⟩
  · intro z hz hpc
    have hzf : z ∈ filter_pc db.zp02 := List.mem_filter.2 ⟨hz, hpc⟩
    refine ⟨build_final_row today
        (update_completion_history db.completion_history
          (update_plan_history today db.plan_history db.zp02)
          (left_join (filter_pc db.zp02) (summarize_zp51n db.zp51n)))
        ⟨z, (summarize_zp51n db.zp51n).find?
          (fun s => s.child_order == some z.order_number)⟩, ?_, rfl⟩
    rw [hout]
    exact List.mem_map.2 ⟨_, List.mem_map.2 ⟨z, hzf, rfl⟩, rfl⟩
  · intro z hz
    have hany : (db.plan_history.any (fun r => r.snapshot_date == today)) = false := by
      rw [List.any_eq_false]
      intro r hr
      simpa using hfresh r hr
    have hplan : (get_merged_data today db false false).2.plan_history
        = db.plan_history
          ++ db.zp02.map (fun r => PlanRow.mk today r.order_number r.plan_end) := by
      show update_plan_history today db.plan_history db.zp02 = _
      rw [update_plan_history, hany]
      rfl
    refine ⟨PlanRow.mk today z.order_number z.plan_end, ?_, rfl, rfl⟩
    rw [hplan]
    exact List.mem_append.2 (Or.inr (List.mem_map.2 ⟨z, hz, rfl⟩))

/-- Witness for C10: a two-order feed, one `PC` order and one null
controller order, on a fresh day. -/
theorem pc_scope_and_snapshot_coverage_witness :
    (∃ fr ∈ (get_merged_data 10
        (DB.mk [⟨"A", some "PC1", none, some 6, none, none⟩,
                ⟨"B", none, none, some 7, none, none⟩] [] [] [])
        false false).1, fr.child_order = "A")
    ∧ (∃ p ∈ (get_merged_data 10
        (DB.mk [⟨"A", some "PC1", none, some 6, none, none⟩,
                ⟨"B", none, none, some 7, none, none⟩] [] [] [])
        false false).2.plan_history,
        p.snapshot_date = 10 ∧ p.order_number = "B") :=
  ⟨(pc_scope_and_snapshot_coverage 10
      (DB.mk [⟨"A", some "PC1", none, some 6, none, none⟩,
              ⟨"B", none, none, some 7, none, none⟩] [] [] [])
      (by intro r hr; cases hr)).2.1
      ⟨"A", some "PC1", none, some 6, none, none⟩ (by decide) (by decide),
   (pc_scope_and_snapshot_coverage 10
      (DB.mk [⟨"A", some "PC1", none, some 6, none, none⟩,
              ⟨"B", none, none, some 7, none, none⟩] [] [] [])
      (by intro r hr; cases hr)).2.2
      ⟨"B", none, none, some 7, none, none⟩ (by decide)⟩
